import Mathlib

/-!
Verification of the vmodem core (`vmodem.go`): a shallow embedding of the
modem state machine, the AT-command tokenizer and dispatcher, the ring task
and the +++ escape detector, together with theorems settling the frozen
claims about this code.

Conventions of the embedding:
* Bytes are `Nat` values (Go `byte` values are < 256 wherever they arise).
* Strings handled byte-wise in Go (`cmd`, `cmdChar`, `cmdNum`,
  `cmdAssignVal`) are `List Nat`; TTY output, which Go builds from string
  literals, is a Lean `String`.
* Go `map[byte]byte` (the S registers, absent key = 0) is a total function
  `Nat → Nat`.
* A Go `panic` is `Except.error` with a `GoPanic` tag; the partially
  mutated state is discarded, as an unrecovered Go panic never yields it.
* `context` epochs are a counter, goroutine launches (`go ...`) are
  recorded in a list, and the user `statusTransition` callback is recorded
  as the list of `(prev, new)` pairs it would observe.  The `commandHook`
  and `outgoingCall` callbacks are external code and are modelled as
  unset (`commandHook == nil`); for the `D` command only the presence bit
  of `outgoingCall` matters and is kept.
-/

inductive ModemStatus
  | Idle
  | Dialing
  | Connected
  | ConnectedCmd
  | Ringing
  | Closed
  deriving DecidableEq

inductive RetCode
  | Ok
  | Error
  | Silent
  | Connect
  | NoCarrier
  | NoDialtone
  | Busy
  | NoAnswer
  | Ring
  | Skip
  | Unknown
  deriving DecidableEq

/-- Kinds of goroutines the core launches with `go ...`. -/
inductive TaskKind
  | ringerTask
  | onlineTask
  | dialTask
  deriving DecidableEq

/-- Go panics the core can raise: `panic(ErrInvalidStateTransition)` in
`setStatus`, and a nil-pointer dereference when `m.conn` is used while nil. -/
inductive GoPanic
  | invalidStateTransition
  | nilPointer
  deriving DecidableEq

/-- Error values returned (not panicked) by modem operations. -/
inductive ModemErr
  | modemBusy
  deriving DecidableEq

/-- The `Modem` struct of `vmodem.go`, restricted to the fields the core
logic reads or writes, plus observation fields (`ttyOut`, `connOut`,
`spawned`, `callbacks`, `ttyClosed`) recording the side effects the Go
code performs through `m.tty`, `m.conn`, `go ...` and `m.statusTransition`. -/
structure Modem where
  st : ModemStatus
  /-- generation counter for `stCtx`/`stCtxCancel`: cancel-and-reissue
  increments it. -/
  epoch : Nat
  /-- `conn`: `none` models a nil `io.ReadWriteCloser`. The `Nat` is an
  opaque handle identifying which stream was installed. -/
  conn : Option Nat
  sregs : Nat → Nat
  echo : Bool
  shortForm : Bool
  quietMode : Bool
  ringCount : Int
  ringMax : Int
  /-- `answerChar` as its list of bytes (`""` = `[]`). -/
  answerChar : List Nat
  connectStr : String
  disablePreGuard : Bool
  disablePostGuard : Bool
  /-- whether the `outgoingCall` callback is non-nil. -/
  hasOutgoingCall : Bool
  /-- bytes written to the TTY so far. -/
  ttyOut : String
  /-- whether `m.tty.Close()` has been called. -/
  ttyClosed : Bool
  /-- bytes written to `conn` so far. -/
  connOut : List Nat
  /-- goroutines launched, with the epoch they were bound to. -/
  spawned : List (TaskKind × Nat)
  /-- `(prev, new)` pairs passed to the `statusTransition` callback. -/
  callbacks : List (ModemStatus × ModemStatus)

def checkValidCmdChar (b : Nat) : Bool :=
  (65 ≤ b && b ≤ 90) || (97 ≤ b && b ≤ 122)

def checkValidNumChar (b : Nat) : Bool :=
  48 ≤ b && b ≤ 57

/-- `m.cr()`. -/
def Modem.cr (m : Modem) : String :=
  if m.shortForm then "\r" else "\r\n"

/-- The `retStr` table of `printRetCode` in short form; `none` is the early
return for `Silent`/`Skip`.  `Unknown` falls through every `case` of the Go
`switch`, leaving `retStr` empty. -/
def retStrShort : RetCode → Option String
  | .Silent => none
  | .Skip => none
  | .Ok => some "0"
  | .Error => some "4"
  | .Connect => some "1"
  | .NoCarrier => some "3"
  | .NoDialtone => some "6"
  | .Busy => some "7"
  | .NoAnswer => some "8"
  | .Ring => some "2"
  | .Unknown => some ""

/-- The `retStr` table of `printRetCode` in verbose form. -/
def retStrVerbose (m : Modem) : RetCode → Option String
  | .Silent => none
  | .Skip => none
  | .Ok => some "OK"
  | .Error => some "ERROR"
  | .Connect => some m.connectStr
  | .NoCarrier => some "NO CARRIER"
  | .NoDialtone => some "NO DIALTONE"
  | .Busy => some "BUSY"
  | .NoAnswer => some "NO ANSWER"
  | .Ring => some "RING"
  | .Unknown => some ""

/-- `printRetCode`: emit `cr + retStr + cr` unless the code is
`Silent`/`Skip` or `quietMode` is set. -/
def printRetCode (m : Modem) (ret : RetCode) : Modem :=
  match (if m.shortForm then retStrShort ret else retStrVerbose m ret) with
  | none => m
  | some s =>
    if m.quietMode then m
    else { m with ttyOut := m.ttyOut ++ (m.cr ++ s ++ m.cr) }

/-- `m.conn.Close(); m.conn = nil` — panics (nil pointer) if `conn` is nil. -/
def closeConn (m : Modem) : Except GoPanic Modem :=
  match m.conn with
  | none => .error .nilPointer
  | some _ => .ok { m with conn := none }

/-- `m.conn.Write(...)` of one byte — panics (nil pointer) if `conn` is nil. -/
def connWrite (m : Modem) (b : Nat) : Except GoPanic Modem :=
  match m.conn with
  | none => .error .nilPointer
  | some _ => .ok { m with connOut := m.connOut ++ [b] }

/-- `setStatus` (vmodem.go:239-293). -/
def setStatus (m : Modem) (status : ModemStatus) : Except GoPanic Modem :=
  if m.st = status then .ok m
  else if m.st = .Closed then .error .invalidStateTransition
  else
    let prev := m.st
    -- m.stCtxCancel(); m.stCtx, m.stCtxCancel = context.WithCancel(...)
    let m1 : Modem := { m with epoch := m.epoch + 1, st := status }
    let core : Except GoPanic Modem :=
      match status with
      | .Idle =>
        let m2 :=
          if prev = .Connected ∨ prev = .ConnectedCmd ∨ prev = .Dialing then
            printRetCode m1 .NoCarrier
          else m1
        if prev = .Connected ∨ prev = .ConnectedCmd ∨ prev = .Ringing then
          closeConn m2
        else .ok m2
      | .Connected =>
        if prev ≠ .Dialing ∧ prev ≠ .Ringing ∧ prev ≠ .ConnectedCmd then
          .error .invalidStateTransition
        else do
          let m2 ←
            if prev = .Ringing ∧ m1.answerChar ≠ [] then
              connWrite m1 (m1.answerChar.headD 0)
            else .ok m1
          let m3 := printRetCode m2 .Connect
          .ok { m3 with spawned := m3.spawned ++ [(.onlineTask, m3.epoch)] }
      | .ConnectedCmd =>
        if prev ≠ .Connected then .error .invalidStateTransition
        else .ok (printRetCode m1 .Ok)
      | .Dialing =>
        if prev ≠ .Idle then .error .invalidStateTransition
        else .ok m1
      | .Ringing =>
        if prev ≠ .Idle then .error .invalidStateTransition
        else .ok { m1 with spawned := m1.spawned ++ [(.ringerTask, m1.epoch)] }
      | .Closed =>
        let m2 : Modem := { m1 with ttyClosed := true }
        if prev = .Connected ∨ prev = .ConnectedCmd ∨ prev = .Ringing then
          closeConn m2
        else .ok m2
    core.map fun mc => { mc with callbacks := mc.callbacks ++ [(prev, status)] }

/-- `close` (vmodem.go:312-314). -/
def Modem.close (m : Modem) : Except GoPanic Modem :=
  setStatus m .Closed

/-- `incomingCall` (vmodem.go:375-382).  Returns the Go `error` value in
the second component. -/
def incomingCall (m : Modem) (c : Nat) : Except GoPanic (Modem × Option ModemErr) :=
  if m.st ≠ .Idle then .ok (m, some .modemBusy)
  else (setStatus { m with conn := some c } .Ringing).map fun m1 => (m1, none)

/-- `r, _ := strconv.Atoi(s)` for the strings the tokenizer hands to
`processCommand`: these are all-digit strings, where `Atoi` yields the
decimal value, or the empty string, where the error is discarded and `r`
is 0 — which is `foldl` with accumulator 0 in both cases. -/
def atoiNat (ds : List Nat) : Nat :=
  ds.foldl (fun a d => a * 10 + (d - 48)) 0

/-- `fmt.Sprintf("%03d", v)` for `v < 1000` (S-register values are bytes,
so always < 256): exactly the hundreds, tens and units digits. -/
def pad3 (v : Nat) : String :=
  String.mk [Nat.digitChar (v / 100 % 10), Nat.digitChar (v / 10 % 10), Nat.digitChar (v % 10)]

/-- Go map store `sregs[k] = v`. -/
def updFn (f : Nat → Nat) (k v : Nat) : Nat → Nat :=
  fun i => if i = k then v else f i

/-- `m.ttyWriteStr(s)` / `fmt.Fprint(m.tty, s)`. -/
def ttyWriteStr (m : Modem) (s : String) : Modem :=
  { m with ttyOut := m.ttyOut ++ s }

/-- `processCommand` (vmodem.go:435-533) with `commandHook == nil`.
`cmdChar` arrives already upper-cased by `processAtCommand`.  The dial
number handed to the dial goroutine is external behaviour and is not
modelled; the launch itself is recorded. -/
def processCommand (m : Modem) (cmdChar : List Nat) (cmdNum : List Nat)
    (cmdAssign : Bool) (cmdQuery : Bool) (cmdAssignVal : List Nat) :
    Except GoPanic (Modem × RetCode) :=
  if cmdChar = [83] then -- "S"
    let r := atoiNat cmdNum
    if 255 < r then .ok (m, .Error)
    else if cmdAssign then
      let v := atoiNat cmdAssignVal
      if 255 < v then .ok (m, .Error)
      else .ok ({ m with sregs := updFn m.sregs r v }, .Ok)
    else if cmdQuery then
      .ok (ttyWriteStr m (m.cr ++ pad3 (m.sregs r) ++ "\r\n"), .Ok)
    else .ok (m, .Ok)
  else if cmdChar = [69] then -- "E"
    match atoiNat cmdNum with
    | 0 => .ok ({ m with echo := false }, .Ok)
    | 1 => .ok ({ m with echo := true }, .Ok)
    | _ => .ok (m, .Error)
  else if cmdChar = [86] then -- "V"
    match atoiNat cmdNum with
    | 0 => .ok ({ m with shortForm := true }, .Ok)
    | 1 => .ok ({ m with shortForm := false }, .Ok)
    | _ => .ok (m, .Error)
  else if cmdChar = [68] then -- "D"
    if m.st ≠ .Idle then .ok (m, .Error)
    else if m.hasOutgoingCall then
      (setStatus m .Dialing).map fun m1 =>
        ({ m1 with spawned := m1.spawned ++ [(.dialTask, m1.epoch)] }, .Silent)
    else .ok (m, .NoCarrier)
  else if cmdChar = [65] then -- "A"
    if m.st = .Idle then .ok (m, .NoCarrier)
    else if m.st ≠ .Ringing then .ok (m, .Error)
    else (setStatus m .Connected).map fun m1 => (m1, .Silent)
  else if cmdChar = [72] then -- "H"
    if m.st = .Connected ∨ m.st = .ConnectedCmd then
      (setStatus m .Idle).map fun m1 => (m1, .Silent)
    else .ok (m, .Ok)
  else if cmdChar = [79] then -- "O"
    if m.st ≠ .ConnectedCmd then .ok (m, .Error)
    else (setStatus m .Connected).map fun m1 => (m1, .Silent)
  else if cmdChar = [81] then -- "Q"
    match atoiNat cmdNum with
    | 0 => .ok ({ m with quietMode := false }, .Ok)
    | 1 => .ok ({ m with quietMode := true }, .Ok)
    | _ => .ok (m, .Error)
  else if cmdChar = [38, 70] ∨ cmdChar = [90] then -- "&F", "Z"
    .ok ({ m with sregs := updFn m.sregs 0 0, echo := true,
                  shortForm := false, quietMode := false }, .Ok)
  else .ok (m, .Ok)

/-- The per-token mutable state of the inner loop of `processAtCommand`
(vmodem.go:543-548). -/
structure Tok where
  cmdChar : List Nat
  cmdNum : List Nat
  cmdLong : Bool
  cmdAssign : Bool
  cmdQuery : Bool
  cmdAssignVal : List Nat
  deriving DecidableEq

def Tok.init : Tok :=
  { cmdChar := [], cmdNum := [], cmdLong := false, cmdAssign := false,
    cmdQuery := false, cmdAssignVal := [] }

/-- Outcome of one iteration of the inner loop on a byte. -/
inductive StepRes
  | err
  | brk (t : Tok)
  | unread (t : Tok)
  | cont (t : Tok)
  deriving DecidableEq

/-- Body of the inner loop of `processAtCommand` (vmodem.go:550-630) on one
byte `b`.  `restNonempty` is `cmdBuf.Len() > 0` evaluated after reading `b`. -/
def tokStep (t : Tok) (b : Nat) (restNonempty : Bool) : StepRes :=
  if b = 63 then -- '?'
    if t.cmdChar ≠ [] then .brk { t with cmdQuery := true } else .err
  else if t.cmdAssign then
    -- short command only accepts numbers
    if ¬t.cmdLong ∧ ¬checkValidNumChar b then .unread t
    else .cont { t with cmdAssignVal := t.cmdAssignVal ++ [b] }
  else if b = 43 ∨ b = 35 then -- '+', '#'
    if t.cmdChar = [] then .cont { t with cmdLong := true, cmdChar := t.cmdChar ++ [b] }
    else .err
  else if b = 61 then -- '='
    if t.cmdChar ≠ [] then .cont { t with cmdAssign := true } else .err
  else if t.cmdLong then
    if checkValidCmdChar b then .cont { t with cmdChar := t.cmdChar ++ [b] }
    else .err
  else if t.cmdChar = [] ∨ t.cmdChar = [38] ∨ t.cmdChar = [37] then
    if (b = 38 ∨ b = 37) ∧ t.cmdChar = [] ∧ restNonempty then -- '&', '%'
      .cont { t with cmdChar := t.cmdChar ++ [b] }
    else if checkValidCmdChar b then
      let c := t.cmdChar ++ [b]
      if c = [100] ∨ c = [68] then -- "d" / "D"
        .cont { t with cmdChar := c, cmdLong := true, cmdAssign := true }
      else .cont { t with cmdChar := c }
    else .err
  else
    if checkValidNumChar b then .cont { t with cmdNum := t.cmdNum ++ [b] }
    else .unread t

/-- The inner loop of `processAtCommand`: consume bytes until the token
breaks, errors, or the buffer empties.  Returns `(e, token, rest)`;
`unread` leaves its byte in `rest`. -/
def readTok : List Nat → Tok → Bool × Tok × List Nat
  | [], t => (false, t, [])
  | b :: rest, t =>
    match tokStep t b (!rest.isEmpty) with
    | .err => (true, t, rest)
    | .brk t1 => (false, t1, rest)
    | .unread t1 => (false, t1, b :: rest)
    | .cont t1 => readTok rest t1

/-- `strings.ToUpper` on the ASCII bytes that can occur in `cmdChar`. -/
def listUpper (l : List Nat) : List Nat :=
  l.map fun b => if 97 ≤ b ∧ b ≤ 122 then b - 32 else b

/-- The outer loop of `processAtCommand` (vmodem.go:542-640).  Each
iteration consumes at least one byte from a nonempty buffer (a fresh token
never `unread`s its first byte), so fuel `buf.length + 1` never runs out;
the fuel-exhaustion result is `Unknown`, which no Go path produces. -/
def runLine : Nat → Modem → List Nat → RetCode → Except GoPanic (Modem × RetCode)
  | 0, m, _, _ => .ok (m, .Unknown)
  | _ + 1, m, [], cmdRet => .ok (m, cmdRet)
  | fuel + 1, m, b :: rest, _ =>
    match readTok (b :: rest) Tok.init with
    | (true, _, _) => .ok (m, .Error)
    | (false, t, rest1) => do
      let (m1, r) ← processCommand m (listUpper t.cmdChar) t.cmdNum
          t.cmdAssign t.cmdQuery t.cmdAssignVal
      if r = .Error then .ok (m1, .Error)
      else if t.cmdLong then .ok (m1, r) -- long commands don't chain
      else runLine fuel m1 rest1 r

/-- `processAtCommand` (vmodem.go:535-646). -/
def processAtCommand (m : Modem) (cmd : List Nat) : Except GoPanic (Modem × RetCode) :=
  if m.st ≠ .Idle ∧ m.st ≠ .ConnectedCmd ∧ m.st ≠ .Ringing then .ok (m, .Error)
  else runLine (cmd.length + 1) m cmd .Ok

/-- Dispatch of a finished command line inside `ttyReadTask`
(vmodem.go:743-744 and 769-770): `processAtCommand` then `printRetCode`. -/
def dispatchLine (m : Modem) (cmd : List Nat) : Except GoPanic Modem :=
  (processAtCommand m cmd).map fun p => printRetCode p.1 p.2

/-- ASCII bytes of a string (the claims only use ASCII command lines). -/
def strBytes (s : String) : List Nat :=
  s.data.map Char.toNat

/-- `ringer` (vmodem.go:329-354), run to completion without external
interference (no epoch cancellation, no concurrent transition during the
inter-ring sleep).  Each loop iteration increments `ringCount` and prints
`RING`; the loop exits to Idle or Connected, and `ringCount` is set to 0
on exit. -/
def ringer (m : Modem) : Except GoPanic Modem :=
  if m.st = .Ringing then
    let m1 := printRetCode { m with ringCount := m.ringCount + 1 } .Ring
    if m.ringMax < m.ringCount + 1 then
      (setStatus m1 .Idle).map fun x => { x with ringCount := 0 }
    else if 0 < m1.sregs 0 ∧ (m1.sregs 0 : Int) ≤ m.ringCount + 1 then
      (setStatus m1 .Connected).map fun x => { x with ringCount := 0 }
    else ringer m1
  else .ok { m with ringCount := 0 }
termination_by (m.ringMax + 1 - m.ringCount).toNat
decreasing_by
  have h1 : (printRetCode { m with ringCount := m.ringCount + 1 } .Ring).ringCount
      = m.ringCount + 1 := by
    unfold printRetCode
    split <;> simp_all <;> split <;> rfl
  have h2 : (printRetCode { m with ringCount := m.ringCount + 1 } .Ring).ringMax
      = m.ringMax := by
    unfold printRetCode
    split <;> simp_all <;> split <;> rfl
  simp only [h1, h2]
  omega

/-- State of the +++ escape detector in `ttyReadTask` (vmodem.go:659-667
and 683-719).  Timestamps are monotonic-clock readings in milliseconds;
the Go zero `time.Time` is modelled as instant 0 with all real arrivals
later.  `escaped` records an immediate transition to ConnectedCmd
(`disablePostGuard` set); `pending` records a scheduled post-guard timer. -/
structure EscState where
  plusCnt : Nat
  lastPlus : Nat
  lastNotPlus : Nat
  escaped : Bool
  pending : Bool
  deriving DecidableEq

def EscState.init : EscState :=
  { plusCnt := 0, lastPlus := 0, lastNotPlus := 0, escaped := false, pending := false }

/-- One byte arriving at time `now` while the modem is Connected
(vmodem.go:687-719).  `guardQ = sregs[12] * 50` ms. -/
def escStep (m : Modem) (s : EscState) (b : Nat) (now : Nat) : EscState :=
  if b = 43 then -- '+'
    if ¬m.disablePreGuard ∧ now - s.lastNotPlus < m.sregs 12 * 50 then
      { s with plusCnt := 0, lastNotPlus := now }
    else
      let pc := if m.sregs 12 * 50 < now - s.lastPlus then 0 else s.plusCnt
      let pc1 := pc + 1
      { s with plusCnt := pc1, lastPlus := now,
               escaped := s.escaped || (pc1 = 3 && m.disablePostGuard),
               pending := s.pending || (pc1 = 3 && !m.disablePostGuard) }
  else
    { s with plusCnt := 0, lastNotPlus := now }

/-- Run the detector over a timed byte trace. -/
def escRun (m : Modem) (trace : List (Nat × Nat)) : EscState :=
  trace.foldl (fun s p => escStep m s p.1 p.2) EscState.init

/-- Timestamps strictly increase, starting strictly after `t0`
(successive TTY reads observe strictly later monotonic-clock instants). -/
def chronoFrom (t0 : Nat) : List (Nat × Nat) → Bool
  | [] => true
  | (_, t) :: rest => t0 < t && chronoFrom t rest

/-- The transition table of spec §4.1, written from the spec's words, for
comparison with `setStatus` (self-loops are not listed in the table). -/
def validTransition : ModemStatus → ModemStatus → Bool
  | .Idle, .Dialing => true
  | .Idle, .Ringing => true
  | .Idle, .Closed => true
  | .Dialing, .Connected => true
  | .Dialing, .Idle => true
  | .Dialing, .Closed => true
  | .Ringing, .Connected => true
  | .Ringing, .Idle => true
  | .Ringing, .Closed => true
  | .Connected, .ConnectedCmd => true
  | .Connected, .Idle => true
  | .Connected, .Closed => true
  | .ConnectedCmd, .Connected => true
  | .ConnectedCmd, .Idle => true
  | .ConnectedCmd, .Closed => true
  | _, _ => false

/-- The `conn` presence invariant (spec §3): `conn` is installed exactly
in Ringing, Connected and ConnectedCmd.  Only the forward direction is
needed by the theorems. -/
def connPresent (m : Modem) : Prop :=
  m.st = .Ringing ∨ m.st = .Connected ∨ m.st = .ConnectedCmd → m.conn.isSome = true

/-- The modem produced by `NewModem` (vmodem.go:785-824) from a minimal
config (TTY only): defaults `echo = true`, `ringMax = 5`,
`connectStr = "CONNECT"`, `sregs[12] = 0`, everything else zero. -/
def initModem : Modem :=
  { st := .Idle, epoch := 0, conn := none, sregs := fun _ => 0,
    echo := true, shortForm := false, quietMode := false,
    ringCount := 0, ringMax := 5, answerChar := [], connectStr := "CONNECT",
    disablePreGuard := false, disablePostGuard := false, hasOutgoingCall := false,
    ttyOut := "", ttyClosed := false, connOut := [], spawned := [], callbacks := [] }

/-- A modem with an established call (for counterexamples). -/
def mConnected : Modem :=
  { initModem with st := .Connected, conn := some 0 }

/-- A quiet-mode modem in command state (for counterexamples). -/
def mQuiet : Modem :=
  { initModem with quietMode := true }

/-- A closed modem. -/
def mClosed : Modem :=
  { initModem with st := .Closed, ttyClosed := true }

/-- A ringing modem with a pending incoming connection. -/
def mRinging : Modem :=
  { initModem with st := .Ringing, conn := some 0 }

/-- Decimal representation of `n` as ASCII digit bytes (what appears in an
AT command for register number `n` or value `v`). -/
def repr10 (n : Nat) : List Nat :=
  if n < 10 then [48 + n] else repr10 (n / 10) ++ [48 + n % 10]
termination_by n
decreasing_by
  exact Nat.div_lt_self (by omega) (by omega)

/-- The spec-side tokenizer-error condition of claim C3 as amended: the
byte `b` aborts the line with ERROR exactly when it is a `?` or `=` with
an empty current token, a `+`/`#` not at the start of a token, a
non-letter after a `+`/`#` prefix, or a non-letter where a letter is
expected (current token empty or a lone `&`/`%`, allowing a second
`&`/`%`-start only at the very beginning with more input available);
inside an assignment value no byte errors. -/
def specTokErr (t : Tok) (b : Nat) (restNonempty : Bool) : Prop :=
  if b = 63 then t.cmdChar = []
  else if t.cmdAssign then False
  else if b = 43 ∨ b = 35 then t.cmdChar ≠ []
  else if b = 61 then t.cmdChar = []
  else if t.cmdLong then ¬checkValidCmdChar b
  else if t.cmdChar = [] ∨ t.cmdChar = [38] ∨ t.cmdChar = [37] then
    ¬((b = 38 ∨ b = 37) ∧ t.cmdChar = [] ∧ restNonempty = true) ∧ ¬checkValidCmdChar b
  else False

/-! ### Frame lemmas for `printRetCode`, `closeConn`, `connWrite` -/

@[simp] theorem printRetCode_st (m : Modem) (r : RetCode) :
    (printRetCode m r).st = m.st := by
  unfold printRetCode
  split
  · rfl
  · split <;> rfl

@[simp] theorem printRetCode_conn (m : Modem) (r : RetCode) :
    (printRetCode m r).conn = m.conn := by
  unfold printRetCode
  split
  · rfl
  · split <;> rfl

@[simp] theorem printRetCode_quietMode (m : Modem) (r : RetCode) :
    (printRetCode m r).quietMode = m.quietMode := by
  unfold printRetCode
  split
  · rfl
  · split <;> rfl

@[simp] theorem printRetCode_sregs (m : Modem) (r : RetCode) :
    (printRetCode m r).sregs = m.sregs := by
  unfold printRetCode
  split
  · rfl
  · split <;> rfl

@[simp] theorem printRetCode_ringCount (m : Modem) (r : RetCode) :
    (printRetCode m r).ringCount = m.ringCount := by
  unfold printRetCode
  split
  · rfl
  · split <;> rfl

@[simp] theorem printRetCode_ringMax (m : Modem) (r : RetCode) :
    (printRetCode m r).ringMax = m.ringMax := by
  unfold printRetCode
  split
  · rfl
  · split <;> rfl

@[simp] theorem printRetCode_answerChar (m : Modem) (r : RetCode) :
    (printRetCode m r).answerChar = m.answerChar := by
  unfold printRetCode
  split
  · rfl
  · split <;> rfl

@[simp] theorem printRetCode_epoch (m : Modem) (r : RetCode) :
    (printRetCode m r).epoch = m.epoch := by
  unfold printRetCode
  split
  · rfl
  · split <;> rfl

@[simp] theorem printRetCode_shortForm (m : Modem) (r : RetCode) :
    (printRetCode m r).shortForm = m.shortForm := by
  unfold printRetCode
  split
  · rfl
  · split <;> rfl

@[simp] theorem printRetCode_echo (m : Modem) (r : RetCode) :
    (printRetCode m r).echo = m.echo := by
  unfold printRetCode
  split
  · rfl
  · split <;> rfl

theorem printRetCode_of_quiet (m : Modem) (r : RetCode) (h : m.quietMode = true) :
    printRetCode m r = m := by
  unfold printRetCode
  split
  · rfl
  · simp [h]

theorem closeConn_of_some (m : Modem) (c : Nat) (h : m.conn = some c) :
    closeConn m = .ok { m with conn := none } := by
  unfold closeConn
  split <;> simp_all

theorem connWrite_of_some (m : Modem) (c b : Nat) (h : m.conn = some c) :
    connWrite m b = .ok { m with connOut := m.connOut ++ [b] } := by
  unfold connWrite
  split <;> simp_all

/-! ### Claim C9 — self-transition is a no-op -/

/-- C9: calling `setStatus` with the status the modem already has returns
the modem completely unchanged — same epoch (no cancel/reissue), same
`ttyOut` (no result code), same `conn`, same `spawned` list, same callback
record, and no panic; in particular `close` on an already-Closed modem
returns silently. -/
theorem setStatus_self_noop (m : Modem) :
    setStatus m m.st = .ok m ∧ (m.st = .Closed → Modem.close m = .ok m) := by
  constructor
  · unfold setStatus
    simp
  · intro h
    unfold Modem.close setStatus
    simp [h]

theorem setStatus_self_noop_witness :
    Modem.close mClosed = .ok mClosed :=
  (setStatus_self_noop mClosed).2 rfl

/-! ### Claim C1 — `&F` / `Z` -/

/-- C1 (amended): for `&F` and `Z`, `processCommand` resets `sregs[0]` to
0, sets `echo` to true, `shortForm` to false and `quietMode` to false, and
returns `Ok` in every status; it performs no status transition (an active
Connected/ConnectedCmd call is not dropped, and `Silent` is never
returned). -/
theorem processCommand_reset (m : Modem) (cmdNum : List Nat) (a q : Bool)
    (v : List Nat) :
    processCommand m [38, 70] cmdNum a q v =
      .ok ({ m with sregs := updFn m.sregs 0 0, echo := true,
                    shortForm := false, quietMode := false }, .Ok) ∧
    processCommand m [90] cmdNum a q v =
      .ok ({ m with sregs := updFn m.sregs 0 0, echo := true,
                    shortForm := false, quietMode := false }, .Ok) := by
  constructor <;> rfl

/-- C1 counterexample: on a Connected modem, `&F` leaves the status
Connected and returns `Ok` — it does not drop to Idle and does not return
`Silent` as the claim states. -/
theorem processCommand_reset_counterexample :
    (processCommand mConnected [38, 70] [] false false []).map
        (fun p => (p.1.st, p.2)) =
      .ok (ModemStatus.Connected, RetCode.Ok) := rfl

/-! ### Claim C4 — the transition table of `setStatus` -/

/-- C4: for a modem satisfying the `conn`-presence invariant, `setStatus`
to a different status succeeds exactly on the transitions of the spec
table (Idle→Dialing/Ringing/Closed, Dialing→Connected/Idle/Closed,
Ringing→Connected/Idle/Closed, Connected→ConnectedCmd/Idle/Closed,
ConnectedCmd→Connected/Idle/Closed, Closed→nothing), landing in the
requested status, and panics with `ErrInvalidStateTransition` on every
transition not in the table — in particular on every transition out of
Closed. -/
theorem setStatus_transition_table (m : Modem) (s : ModemStatus)
    (hconn : connPresent m) (hne : m.st ≠ s) :
    (validTransition m.st s = true → ∃ m1, setStatus m s = .ok m1 ∧ m1.st = s) ∧
    (validTransition m.st s = false → setStatus m s = .error .invalidStateTransition) := by
  unfold connPresent at hconn
  cases hst : m.st <;> cases s <;>
      simp_all [validTransition, setStatus, Except.map] <;>
    try exact ⟨_, rfl, rfl⟩
  all_goals obtain ⟨c, hc⟩ := Option.isSome_iff_exists.mp hconn
  all_goals simp [closeConn, connWrite, hc]
  all_goals try exact ⟨_, rfl, rfl⟩
  all_goals rcases eq_or_ne m.answerChar ([] : List Nat) with ha | ha <;>
      simp [ha] <;>
    exact ⟨_, rfl, rfl⟩

theorem setStatus_transition_table_witness :
    (∃ m1, setStatus initModem .Dialing = .ok m1 ∧ m1.st = .Dialing) ∧
    setStatus mClosed .Idle = .error .invalidStateTransition := by
  constructor
  · exact (setStatus_transition_table initModem .Dialing
      (fun h => by simp [initModem] at h) (by decide)).1 rfl
  · exact (setStatus_transition_table mClosed .Idle
      (fun h => by simp [mClosed, initModem] at h) (by decide)).2 rfl

/-! ### Claim C6 — `incomingCall` -/

/-- C6: in Idle, `incomingCall conn` installs `conn` and transitions to
Ringing (launching the ring task), returning no error; in every other
status it returns `ErrModemBusy` and leaves the modem — status and `conn`
included — completely unchanged. -/
theorem incomingCall_spec (m : Modem) (c : Nat) :
    (m.st = .Idle →
      incomingCall m c =
        .ok ({ m with conn := some c, st := .Ringing, epoch := m.epoch + 1,
                      spawned := m.spawned ++ [(.ringerTask, m.epoch + 1)],
                      callbacks := m.callbacks ++ [(.Idle, .Ringing)] }, none)) ∧
    (m.st ≠ .Idle → incomingCall m c = .ok (m, some .modemBusy)) := by
  constructor
  · intro h
    simp [incomingCall, setStatus, h, Except.map]
  · intro h
    simp [incomingCall, h]

theorem incomingCall_spec_witness :
    incomingCall initModem 7 =
      .ok ({ initModem with conn := some 7, st := .Ringing, epoch := 1,
                            spawned := [(.ringerTask, 1)],
                            callbacks := [(.Idle, .Ringing)] }, none) ∧
    incomingCall mConnected 7 = .ok (mConnected, some .modemBusy) := by
  constructor
  · have h := (incomingCall_spec initModem 7).1 rfl
    simpa [initModem] using h
  · exact (incomingCall_spec mConnected 7).2 (by decide)

/-! ### Decimal digits: `Atoi` inverts the decimal representation -/

theorem atoiNat_append (ds : List Nat) (d : Nat) :
    atoiNat (ds ++ [d]) = atoiNat ds * 10 + (d - 48) := by
  simp [atoiNat, List.foldl_append]

theorem atoiNat_repr10 (n : Nat) : atoiNat (repr10 n) = n := by
  induction n using Nat.strong_induction_on with
  | _ n ih =>
    rw [repr10]
    split
    · simp [atoiNat]
    · rw [atoiNat_append, ih (n / 10) (Nat.div_lt_self (by omega) (by omega))]
      omega

/-! ### Claim C5 — S-register round trip -/

/-- C5: for every `n, v ∈ [0,255]`, the command `S<n>=<v>` returns `Ok`
and stores `sregs[n] = v` (writing nothing to the TTY), and a following
`S<n>?` returns `Ok` and writes the three-digit zero-padded decimal of `v`
(framed by `cr` and CRLF) to the TTY; a register number or value parsed
above 255 yields `Error` with the modem unchanged (nothing stored). -/
theorem sreg_roundtrip (m : Modem) (n v : Nat) (hn : n ≤ 255) (hv : v ≤ 255) :
    (∃ m1, processCommand m [83] (repr10 n) true false (repr10 v) = .ok (m1, .Ok) ∧
       m1.sregs n = v ∧ m1.ttyOut = m.ttyOut ∧
       ∃ m2, processCommand m1 [83] (repr10 n) false true [] = .ok (m2, .Ok) ∧
         m2.ttyOut = m1.ttyOut ++ (m1.cr ++ pad3 v ++ "\r\n") ∧
         (pad3 v).length = 3) ∧
    (∀ ds a q av, 255 < atoiNat ds →
       processCommand m [83] ds a q av = .ok (m, .Error)) ∧
    (∀ ds av, atoiNat ds ≤ 255 → 255 < atoiNat av →
       processCommand m [83] ds true false av = .ok (m, .Error)) := by
  have hnn : ¬(255 < n) := by omega
  have hvv : ¬(255 < v) := by omega
  have hq : processCommand { m with sregs := updFn m.sregs n v } [83] (repr10 n) false true [] =
      .ok (ttyWriteStr { m with sregs := updFn m.sregs n v }
             (Modem.cr { m with sregs := updFn m.sregs n v } ++ pad3 v ++ "\r\n"), .Ok) := by
    simp [processCommand, atoiNat_repr10, hnn, updFn]
  refine ⟨⟨{ m with sregs := updFn m.sregs n v }, ?_, by simp [updFn], rfl,
           ttyWriteStr _ _, hq, rfl, rfl⟩, ?_, ?_⟩
  · simp [processCommand, atoiNat_repr10, hnn, hvv]
  · intro ds a q av hds
    simp [processCommand, hds]
  · intro ds av hds hav
    have h2 : ¬(255 < atoiNat ds) := by omega
    simp [processCommand, h2, hav]

theorem sreg_roundtrip_witness :
    ∃ m1, processCommand initModem [83] (repr10 0) true false (repr10 5) = .ok (m1, .Ok) ∧
      m1.sregs 0 = 5 ∧ m1.ttyOut = initModem.ttyOut ∧
      ∃ m2, processCommand m1 [83] (repr10 0) false true [] = .ok (m2, .Ok) ∧
        m2.ttyOut = m1.ttyOut ++ (m1.cr ++ pad3 5 ++ "\r\n") ∧
        (pad3 5).length = 3 :=
  (sreg_roundtrip initModem 0 5 (by decide) (by decide)).1

/-! ### Tokenizer lemmas: digit runs -/

theorem readTok_assign_digits (ds : List Nat) (t : Tok)
    (ha : t.cmdAssign = true) (hl : t.cmdLong = false)
    (hd : ∀ b ∈ ds, checkValidNumChar b = true) :
    readTok ds t = (false, { t with cmdAssignVal := t.cmdAssignVal ++ ds }, []) := by
  induction ds generalizing t with
  | nil => simp [readTok]
  | cons b rest ih =>
    have hb : checkValidNumChar b = true := hd b (by simp)
    have hb63 : ¬(b = 63) := by
      intro hx
      subst hx
      simp [checkValidNumChar] at hb
    rw [readTok]
    simp [tokStep, hb63, ha, hl, hb]
    rw [ih _ rfl rfl (fun x hx => hd x (by simp [hx]))]
    simp

theorem readTok_S_assign (ds : List Nat)
    (hd : ∀ b ∈ ds, checkValidNumChar b = true) :
    readTok (83 :: 61 :: ds) Tok.init =
      (false, { Tok.init with cmdChar := [83], cmdAssign := true, cmdAssignVal := ds }, []) := by
  rw [readTok]
  simp [tokStep, Tok.init, checkValidCmdChar]
  rw [readTok]
  simp [tokStep]
  rw [readTok_assign_digits ds _ rfl rfl hd]
  simp [Tok.init]

/-! ### Claim C10 — missing numeric argument defaults to 0 -/

/-- C10: for `E`, `V`, `Q` and `S`, a missing numeric argument is the
number 0: the bare line `E` disables echo (like `E0`), bare `V` enables
short-form (like `V0`), bare `Q` disables quiet mode (like `Q0`), and
`S=<v>` with no register digits stores `sregs[0] = v` — because the empty
digit string is parsed (by the error-discarding `Atoi`) to 0. -/
theorem empty_number_defaults (m : Modem) (h : m.st = .Idle) :
    processAtCommand m (strBytes "E") = .ok ({ m with echo := false }, .Ok) ∧
    processAtCommand m (strBytes "V") = .ok ({ m with shortForm := true }, .Ok) ∧
    processAtCommand m (strBytes "Q") = .ok ({ m with quietMode := false }, .Ok) ∧
    (∀ ds, (∀ b ∈ ds, checkValidNumChar b = true) → atoiNat ds ≤ 255 →
      processAtCommand m (83 :: 61 :: ds) =
        .ok ({ m with sregs := updFn m.sregs 0 (atoiNat ds) }, .Ok)) ∧
    atoiNat [] = 0 := by
  have hg : ¬(m.st ≠ ModemStatus.Idle ∧ m.st ≠ ModemStatus.ConnectedCmd ∧
      m.st ≠ ModemStatus.Ringing) := by
    simp [h]
  refine ⟨?_, ?_, ?_, ?_, rfl⟩
  · unfold processAtCommand
    rw [if_neg hg]
    rfl
  · unfold processAtCommand
    rw [if_neg hg]
    rfl
  · unfold processAtCommand
    rw [if_neg hg]
    rfl
  · intro ds hd hle
    have hnn : ¬(255 < atoiNat ds) := by omega
    unfold processAtCommand
    rw [if_neg hg]
    rw [runLine, readTok_S_assign ds hd]
    simp [listUpper, processCommand, hnn, Tok.init]
    simp [atoiNat, runLine]
    rfl

theorem empty_number_defaults_witness :
    processAtCommand initModem (strBytes "E") = .ok ({ initModem with echo := false }, .Ok) ∧
    processAtCommand initModem (83 :: 61 :: [57]) =
      .ok ({ initModem with sregs := updFn initModem.sregs 0 (atoiNat [57]) }, .Ok) :=
  ⟨(empty_number_defaults initModem rfl).1,
   (empty_number_defaults initModem rfl).2.2.2.1 [57] (by decide) (by decide)⟩

/-! ### Claim C3 — tokenizer error conditions -/

/-- C3 (amended): a byte aborts the inner tokenizer loop with an error
exactly under `specTokErr`: a `?` or an `=` with an *empty* current token
(not "no preceding LETTER" — any nonempty token, including a bare `&`,
licenses them, so `&?` and `&=1` are accepted), a `+`/`#` not at the start
of a token, a non-letter after a `+`/`#` prefix, and a non-letter where a
letter is expected (current token empty or a lone `&`/`%`); and whenever
the tokenizer errors on a line, `processAtCommand` stops and returns
`Error` with the modem unchanged. -/
theorem tokenizer_errors :
    (∀ (t : Tok) (b : Nat) (rn : Bool),
       tokStep t b rn = .err ↔ specTokErr t b rn) ∧
    (∀ (m : Modem) (cmd : List Nat) (t : Tok) (rest : List Nat),
       m.st = .Idle → readTok cmd Tok.init = (true, t, rest) →
       processAtCommand m cmd = .ok (m, .Error)) := by
  constructor
  · intro t b rn
    unfold tokStep specTokErr
    split_ifs <;> simp_all
    split <;> simp_all
  · intro m cmd t rest hst hrt
    unfold processAtCommand
    rw [if_neg (by simp [hst])]
    cases cmd with
    | nil => simp [readTok] at hrt
    | cons b bs =>
      rw [runLine, hrt]

/-- C3 counterexample: the claim lists `&?` and `&=1` as malformed inputs
on which `processAtCommand` returns `Error`; in fact both are accepted
as commands for token `&` and return `Ok`. -/
theorem tokenizer_errors_counterexample :
    (processAtCommand initModem (strBytes "&?")).map (fun p => p.2) = .ok RetCode.Ok ∧
    (processAtCommand initModem (strBytes "&=1")).map (fun p => p.2) = .ok RetCode.Ok := by
  constructor <;> rfl

theorem tokenizer_errors_witness :
    processAtCommand initModem (strBytes "?") = .ok (initModem, .Error) :=
  tokenizer_errors.2 initModem (strBytes "?") Tok.init [] rfl rfl

/-! ### Claim C7 — the ring task -/

/-- C7: each iteration of the ring task in Ringing increments `ringCount`
and emits `RING` (through `printRetCode`); if the new count exceeds
`ringMax` it transitions to Idle and exits, otherwise if `sregs[0] > 0`
and the count has reached `sregs[0]` it transitions to Connected and
exits — the `ringMax` check is applied first — and otherwise it loops;
and on exit (both ways) `ringCount` is 0, the final status being Idle or
Connected.  Stated for an uninterfered run (no epoch cancellation during
the inter-ring sleep). -/
theorem ringer_spec (m : Modem) (hr : m.st = .Ringing) (hc : m.conn.isSome = true) :
    ((m.ringMax < m.ringCount + 1 →
       ringer m = (setStatus (printRetCode { m with ringCount := m.ringCount + 1 } .Ring)
           .Idle).map (fun x => { x with ringCount := 0 })) ∧
     (¬(m.ringMax < m.ringCount + 1) →
       (0 < m.sregs 0 ∧ (m.sregs 0 : Int) ≤ m.ringCount + 1) →
       ringer m = (setStatus (printRetCode { m with ringCount := m.ringCount + 1 } .Ring)
           .Connected).map (fun x => { x with ringCount := 0 })) ∧
     (¬(m.ringMax < m.ringCount + 1) →
       ¬(0 < m.sregs 0 ∧ (m.sregs 0 : Int) ≤ m.ringCount + 1) →
       ringer m = ringer (printRetCode { m with ringCount := m.ringCount + 1 } .Ring))) ∧
    (∃ r, ringer m = .ok r ∧ r.ringCount = 0 ∧ (r.st = .Idle ∨ r.st = .Connected)) := by
  constructor
  · refine ⟨?_, ?_, ?_⟩
    · intro h1
      rw [ringer, if_pos hr, if_pos h1]
    · intro h1 h2
      rw [ringer, if_pos hr, if_neg h1, if_pos (by simpa using h2)]
    · intro h1 h2
      rw [ringer, if_pos hr, if_neg h1, if_neg (by simpa using h2)]
  · suffices H : ∀ (k : Nat) (mm : Modem), (mm.ringMax + 1 - mm.ringCount).toNat = k →
        mm.st = .Ringing → mm.conn.isSome = true →
        ∃ r, ringer mm = .ok r ∧ r.ringCount = 0 ∧ (r.st = .Idle ∨ r.st = .Connected) by
      exact H _ m rfl hr hc
    intro k
    induction k using Nat.strong_induction_on with
    | _ k ih =>
      intro mm hk hr1 hc1
      obtain ⟨c, hcc⟩ := Option.isSome_iff_exists.mp hc1
      rw [ringer, if_pos hr1]
      by_cases h1 : mm.ringMax < mm.ringCount + 1
      · rw [if_pos h1]
        simp [setStatus, hr1, closeConn, hcc, Except.map]
      · rw [if_neg h1]
        by_cases h2 : 0 < mm.sregs 0 ∧ (mm.sregs 0 : Int) ≤ mm.ringCount + 1
        · rw [if_pos (by simpa using h2)]
          rcases eq_or_ne mm.answerChar ([] : List Nat) with ha | ha <;>
              simp [setStatus, hr1, connWrite, hcc, ha, Except.map] <;>
            exact ⟨_, rfl, rfl, Or.inr rfl⟩
        · rw [if_neg (by simpa using h2)]
          exact ih _ (by simp; omega) _ rfl (by simp [hr1]) (by simp [hc1])

theorem ringer_spec_witness :
    ∃ r, ringer mRinging = .ok r ∧ r.ringCount = 0 ∧
      (r.st = .Idle ∨ r.st = .Connected) :=
  (ringer_spec mRinging rfl rfl).2

/-! ### Claim C8 — +++ escape unreachable when `sregs[12] = 0` -/

theorem escFold_invariant (m : Modem) (h12 : m.sregs 12 = 0) :
    ∀ (trace : List (Nat × Nat)) (s : EscState) (t0 : Nat),
      chronoFrom t0 trace = true → s.lastPlus ≤ t0 → s.plusCnt ≤ 1 →
      s.escaped = false → s.pending = false →
      (trace.foldl (fun x p => escStep m x p.1 p.2) s).plusCnt ≤ 1 ∧
      (trace.foldl (fun x p => escStep m x p.1 p.2) s).escaped = false ∧
      (trace.foldl (fun x p => escStep m x p.1 p.2) s).pending = false := by
  intro trace
  induction trace with
  | nil =>
    intro s t0 _ _ h1 h2 h3
    exact ⟨h1, h2, h3⟩
  | cons p rest ih =>
    intro s t0 hch hlp h1 h2 h3
    obtain ⟨b, t⟩ := p
    simp [chronoFrom] at hch
    obtain ⟨hlt, hch1⟩ := hch
    simp only [List.foldl_cons]
    by_cases hb : b = 43
    · have hplt : s.lastPlus < t := by omega
      have hnle : ¬(t ≤ s.lastPlus) := by omega
      have hstep : escStep m s b t =
          { s with plusCnt := 1, lastPlus := t,
                   escaped := s.escaped || (1 = 3 && m.disablePostGuard),
                   pending := s.pending || (1 = 3 && !m.disablePostGuard) } := by
        simp [escStep, hb, h12, hplt, hnle]
      rw [hstep]
      exact ih _ t hch1 (by simp) (by simp) (by simp [h2]) (by simp [h3])
    · have hstep : escStep m s b t = { s with plusCnt := 0, lastNotPlus := t } := by
        simp [escStep, hb]
      rw [hstep]
      exact ih _ t hch1 (by simp; omega) (by simp) (by simp [h2]) (by simp [h3])

/-- C8: with `sregs[12] = 0` and both guard-disable flags off, no byte
sequence arriving on the TTY in Connected state (bytes arriving at
strictly increasing monotonic-clock instants) ever drives the escape
detector to ConnectedCmd: `plusCnt` never exceeds 1 (so never reaches 3),
no immediate escape fires and no post-guard timer is ever scheduled —
each `+` finds more than the zero guard time elapsed since the previous
`+` and is counted as the first of a new run. -/
theorem escape_unreachable_guard_zero (m : Modem) (h12 : m.sregs 12 = 0)
    (hpre : m.disablePreGuard = false) (hpost : m.disablePostGuard = false) :
    ∀ trace : List (Nat × Nat), chronoFrom 0 trace = true →
      (escRun m trace).plusCnt ≤ 1 ∧ (escRun m trace).escaped = false ∧
      (escRun m trace).pending = false := by
  intro trace hch
  exact escFold_invariant m h12 trace EscState.init 0 hch (by simp [EscState.init])
    (by simp [EscState.init]) rfl rfl

theorem escape_unreachable_guard_zero_witness :
    (escRun initModem [(43, 1), (43, 2), (43, 3), (43, 4)]).plusCnt ≤ 1 ∧
    (escRun initModem [(43, 1), (43, 2), (43, 3), (43, 4)]).escaped = false ∧
    (escRun initModem [(43, 1), (43, 2), (43, 3), (43, 4)]).pending = false :=
  escape_unreachable_guard_zero initModem rfl rfl rfl _ (by decide)

/-! ### Claim C2 — quiet mode and TTY output -/

theorem setStatus_quiet (m : Modem) (s : ModemStatus) (hq : m.quietMode = true) :
    ∀ m1, setStatus m s = .ok m1 → m1.ttyOut = m.ttyOut ∧ m1.quietMode = true := by
  intro m1 h
  cases hst : m.st <;> cases s <;> cases hcn : m.conn <;>
      rcases eq_or_ne m.answerChar ([] : List Nat) with ha | ha <;>
      simp_all [setStatus, Except.map, Except.bind, Bind.bind, closeConn, connWrite,
        printRetCode_of_quiet] <;>
      (try subst h) <;>
    (try simp_all)

theorem mapSilent_quiet (m : Modem) (target : ModemStatus) (g : Modem → Modem)
    (hg : ∀ x, (g x).ttyOut = x.ttyOut ∧ (g x).quietMode = x.quietMode)
    (hq : m.quietMode = true) (m1 : Modem) (r : RetCode)
    (h : (setStatus m target).map (fun x => (g x, RetCode.Silent)) = .ok (m1, r)) :
    m1.ttyOut = m.ttyOut ∧ m1.quietMode = true := by
  cases hss : setStatus m target with
  | error e =>
    rw [hss] at h
    simp [Except.map] at h
  | ok x =>
    rw [hss] at h
    simp only [Except.map] at h
    injection h with h1
    injection h1 with h2 h3
    subst h2
    have hx := setStatus_quiet m target hq x hss
    rw [(hg x).1, (hg x).2]
    exact hx

theorem processCommand_quiet (m : Modem) (c n : List Nat) (a q : Bool) (v : List Nat)
    (hq : m.quietMode = true) (hS : c ≠ [83]) (hQ : c ≠ [81])
    (hF : c ≠ [38, 70]) (hZ : c ≠ [90]) :
    ∀ m1 r, processCommand m c n a q v = .ok (m1, r) →
      m1.ttyOut = m.ttyOut ∧ m1.quietMode = true := by
  intro m1 r h
  unfold processCommand at h
  rw [if_neg hS] at h
  split_ifs at h
  all_goals try (split at h)
  all_goals try simp_all
  all_goals
    first
    | exact mapSilent_quiet m .Dialing
        (fun x => { x with spawned := x.spawned ++ [(.dialTask, x.epoch)] })
        (fun x => ⟨rfl, rfl⟩) hq m1 r h
    | exact mapSilent_quiet m .Connected (fun x => x) (fun x => ⟨rfl, rfl⟩) hq m1 r h
    | exact mapSilent_quiet m .Idle (fun x => x) (fun x => ⟨rfl, rfl⟩) hq m1 r h
    | (obtain ⟨h1, h2⟩ := h
       subst h1
       simp_all)

theorem tokStep_cmdChar_mem (t : Tok) (b : Nat) (rn : Bool) (t1 : Tok)
    (h : tokStep t b rn = .brk t1 ∨ tokStep t b rn = .unread t1 ∨
         tokStep t b rn = .cont t1) :
    ∀ x ∈ t1.cmdChar, x ∈ t.cmdChar ∨ x = b := by
  intro x hx
  unfold tokStep at h
  split_ifs at h <;>
      rcases h with h | h | h <;>
    first
      | ((cases h) <;> simp_all)
      | (rcases ite_eq_iff.mp h with ⟨hc, h2⟩ | ⟨hc, h2⟩ <;> cases h2 <;> simp_all)
      | simp_all

theorem readTok_mem (P : Nat → Prop) :
    ∀ (l : List Nat) (t : Tok), (∀ x ∈ l, P x) → (∀ x ∈ t.cmdChar, P x) →
      (∀ x ∈ ((readTok l t).2.1).cmdChar, P x) ∧ (∀ x ∈ (readTok l t).2.2, P x) := by
  intro l
  induction l with
  | nil =>
    intro t hl ht
    simpa [readTok] using ht
  | cons b rest ih =>
    intro t hl ht
    rw [readTok]
    cases hstep : tokStep t b (!rest.isEmpty) with
    | err =>
      exact ⟨ht, fun x hx => hl x (by simp [hx])⟩
    | brk t1 =>
      refine ⟨?_, fun x hx => hl x (by simp [hx])⟩
      intro x hx
      rcases tokStep_cmdChar_mem t b _ t1 (Or.inl hstep) x hx with h | h
      · exact ht x h
      · subst h
        exact hl x (by simp)
    | unread t1 =>
      refine ⟨?_, fun x hx => hl x hx⟩
      intro x hx
      rcases tokStep_cmdChar_mem t b _ t1 (Or.inr (Or.inl hstep)) x hx with h | h
      · exact ht x h
      · subst h
        exact hl x (by simp)
    | cont t1 =>
      apply ih t1 (fun x hx => hl x (by simp [hx]))
      intro x hx
      rcases tokStep_cmdChar_mem t b _ t1 (Or.inr (Or.inr hstep)) x hx with h | h
      · exact ht x h
      · subst h
        exact hl x (by simp)

theorem listUpper_avoid (l : List Nat)
    (h : ∀ x ∈ l, x ∉ ([83, 115, 81, 113, 38, 90, 122] : List Nat)) :
    listUpper l ≠ [83] ∧ listUpper l ≠ [81] ∧ listUpper l ≠ [38, 70] ∧
    listUpper l ≠ [90] := by
  cases l with
  | nil => simp [listUpper]
  | cons a as =>
    have ha := h a (by simp)
    simp at ha
    cases as with
    | nil =>
      simp [listUpper]
      split_ifs <;> (constructor <;> [skip; constructor] <;> [skip; skip; skip]) <;> omega
    | cons a2 as2 =>
      simp [listUpper]
      intro hcon
      split_ifs at hcon <;> omega

theorem runLine_quiet :
    ∀ (fuel : Nat) (m : Modem) (buf : List Nat) (r0 : RetCode),
      m.quietMode = true →
      (∀ x ∈ buf, x ∉ ([83, 115, 81, 113, 38, 90, 122] : List Nat)) →
      ∀ m1 r1, runLine fuel m buf r0 = .ok (m1, r1) →
        m1.ttyOut = m.ttyOut ∧ m1.quietMode = true := by
  intro fuel
  induction fuel with
  | zero =>
    intro m buf r0 hq hcl m1 r1 h
    rw [runLine] at h
    injection h with h1
    injection h1 with h2 h3
    subst h2
    exact ⟨rfl, hq⟩
  | succ fuel ih =>
    intro m buf r0 hq hcl m1 r1 h
    cases buf with
    | nil =>
      rw [runLine] at h
      injection h with h1
      injection h1 with h2 h3
      subst h2
      exact ⟨rfl, hq⟩
    | cons b bs =>
      rw [runLine] at h
      rcases hrt : readTok (b :: bs) Tok.init with ⟨e, t, rest⟩
      rw [hrt] at h
      have hprov := readTok_mem (fun x => x ∉ ([83, 115, 81, 113, 38, 90, 122] : List Nat))
        (b :: bs) Tok.init hcl (by simp [Tok.init])
      rw [hrt] at hprov
      cases e with
      | true =>
        simp at h
        obtain ⟨h2, h3⟩ := h
        subst h2
        exact ⟨rfl, hq⟩
      | false =>
        dsimp only at h
        obtain ⟨hup1, hup2, hup3, hup4⟩ := listUpper_avoid t.cmdChar hprov.1
        cases hpc : processCommand m (listUpper t.cmdChar) t.cmdNum t.cmdAssign
            t.cmdQuery t.cmdAssignVal with
        | error g =>
          rw [hpc] at h
          simp [bind, Except.bind] at h
        | ok p =>
          obtain ⟨m2, r2⟩ := p
          have hq2 := processCommand_quiet m (listUpper t.cmdChar) t.cmdNum t.cmdAssign
            t.cmdQuery t.cmdAssignVal hq hup1 hup2 hup3 hup4 m2 r2 hpc
          rw [hpc] at h
          simp only [bind, Except.bind] at h
          by_cases hr2 : r2 = RetCode.Error
          · rw [if_pos hr2] at h
            injection h with h1
            injection h1 with h2 h3
            subst h2
            exact hq2
          · rw [if_neg hr2] at h
            by_cases hlong : t.cmdLong = true
            · rw [if_pos hlong] at h
              injection h with h1
              injection h1 with h2 h3
              subst h2
              exact hq2
            · rw [if_neg hlong] at h
              have := ih m2 rest r2 hq2.2 (fun x hx => hprov.2 x hx) m1 r1 h
              exact ⟨this.1.trans hq2.1, this.2⟩

/-- C2 (amended): `printRetCode` emits nothing whenever `quietMode` is on,
and dispatching a command line from a quiet modem writes no bytes to the
TTY provided the line contains no `S`-register command and no
quiet-clearing command (no `S`/`s`, `Q`/`q`, `Z`/`z` or `&` byte): the
`S<n>?` register printout is written directly, bypassing the quiet check,
and a `Q0`/`&F`/`Z` in the line re-enables result codes from that point
on. -/
theorem quiet_mode_no_output :
    (∀ (m : Modem) (r : RetCode), m.quietMode = true → printRetCode m r = m) ∧
    (∀ (m : Modem) (cmd : List Nat), m.quietMode = true →
       (∀ x ∈ cmd, x ∉ ([83, 115, 81, 113, 38, 90, 122] : List Nat)) →
       ∀ m1, dispatchLine m cmd = .ok m1 → m1.ttyOut = m.ttyOut) := by
  constructor
  · exact fun m r hq => printRetCode_of_quiet m r hq
  · intro m cmd hq hcl m1 h
    unfold dispatchLine processAtCommand at h
    split_ifs at h with hgate
    · simp [Except.map] at h
      rw [← h, printRetCode_of_quiet m _ hq]
    · cases hrl : runLine (cmd.length + 1) m cmd .Ok with
      | error g =>
        rw [hrl] at h
        simp [Except.map] at h
      | ok p =>
        obtain ⟨m2, r2⟩ := p
        rw [hrl] at h
        simp [Except.map] at h
        have hx := runLine_quiet (cmd.length + 1) m cmd .Ok hq hcl m2 r2 hrl
        rw [← h, printRetCode_of_quiet m2 _ hx.2]
        exact hx.1

/-- C2 counterexample: with `quietMode` on, dispatching `S0?` writes the
register printout `\r\n000\r\n` to the TTY — command dispatch is not
silent under quiet mode as the claim states. -/
theorem quiet_mode_no_output_counterexample :
    mQuiet.quietMode = true ∧
    (dispatchLine mQuiet (strBytes "S0?")).map Modem.ttyOut =
      .ok ("\r\n" ++ pad3 0 ++ "\r\n") := by
  constructor
  · rfl
  · rfl

theorem quiet_mode_no_output_witness :
    ∃ m1, dispatchLine mQuiet (strBytes "E0") = .ok m1 ∧ m1.ttyOut = mQuiet.ttyOut := by
  refine ⟨_, rfl, ?_⟩
  exact quiet_mode_no_output.2 mQuiet (strBytes "E0") rfl (by decide) _ rfl
